import Mathlib

/-!
# Verification of the chat-assistant thread-storage and adapter layer

A shallow embedding of the TypeScript sources of the `chat-assistant-ollama`
repository, together with proofs about the embedded operations.

Embedding conventions used throughout this file:

* A JavaScript `Record<string, T>` object whose keys always coincide with the
  `id` field of the stored value (the invariant maintained by every writer in
  the source: `saveThreads`, `createNewThread`, `deleteThread`,
  `migrateOldData`, ...) is embedded as a `List T` in key-insertion order;
  `Object.values` is then the list itself, deleting the key `id` is
  `List.filter (fun t => t.id ≠ id)`, and `obj[id] = t` is replace-or-append.
* ISO-8601 timestamp strings are represented by their `Date.getTime()` value
  (a `Nat`), since the source only ever compares timestamps through
  `new Date(s).getTime()`.
* Optional / possibly-`undefined` fields are `Option` fields.
* JavaScript string primitives used by the source (`includes`, `split`,
  `substring`, `length`) are modelled structurally over the character list of
  the string so that they are kernel-computable.
-/

/-- A typed content part of a message (`{ type, text?, image?, ... }` in
`ThreadMessageLike.content` / attachment content arrays). -/
structure ContentPart where
  type : String
  text : Option String := none
  image : Option String := none
deriving DecidableEq

/-- An attachment of a message (`ThreadMessageLike.attachments` element). -/
structure Attachment where
  id : String
  type : String
  name : String
  contentType : String
  content : List ContentPart
deriving DecidableEq

/-- Message status object (`{ type, reason?, error? }`). -/
structure MessageStatus where
  type : String
  reason : Option String := none
  error : Option String := none
deriving DecidableEq

/-- The message role union type `"user" | "assistant" | "system"`. -/
inductive Role where
  | user
  | assistant
  | system
deriving DecidableEq

/-- `content: string | Array<ContentPart>` of a stored message. -/
inductive MessageContent where
  | str (s : String)
  | parts (ps : List ContentPart)
deriving DecidableEq

/-- The store's message shape `ThreadMessageLike` (chat-store.ts).  The
free-form `metadata` record is omitted: no operation verified here reads or
writes it.  `createdAt : Date` is embedded as its epoch value. -/
structure ThreadMessageLike where
  id : String
  role : Role
  content : MessageContent
  createdAt : Nat := 0
  attachments : Option (List Attachment) := none
  status : Option MessageStatus := none
deriving DecidableEq

/-! ## thread-storage.ts : data model and retention cleanup -/

/-- `ThreadData` of thread-storage.ts.  `updatedAt`/`createdAt` are the
`getTime()` values of the stored ISO strings. -/
structure ThreadData where
  id : String
  messages : List ThreadMessageLike
  createdAt : Nat
  updatedAt : Nat
  model : Option String := none
deriving DecidableEq

/-- `STORAGE_CONFIG.maxThreads`. -/
def STORAGE_CONFIG_maxThreads : Nat := 10

/-- `cleanupOldThreads` (thread-storage.ts lines 141-166): if at most
`maxThreads` threads are present the record is returned unchanged; otherwise
the threads are sorted by `updatedAt` descending (the comparator
`(a, b) => new Date(b.updatedAt).getTime() - new Date(a.updatedAt).getTime()`)
and the first `maxThreads` are kept.  The final `Object.fromEntries` step is
the identity on the id-keyed list embedding. -/
def cleanupOldThreads (threads : List ThreadData) (maxThreads : Nat) : List ThreadData :=
  if threads.length ≤ maxThreads then threads
  else (threads.mergeSort (fun a b => decide (b.updatedAt ≤ a.updatedAt))).take maxThreads

/-! ## chat-store.ts : thread collection state and its mutations -/

/-- Thread lifecycle status `"regular" | "archived"`. -/
inductive ThreadStatus where
  | regular
  | archived
deriving DecidableEq

/-- `ChatThread` of chat-store.ts. -/
structure ChatThread where
  id : String
  messages : List ThreadMessageLike
  model : String
  createdAt : Nat
  updatedAt : Nat
  title : String
  status : ThreadStatus
deriving DecidableEq

/-- The mutable state of the chat store (`currentThreadId`, `threads`,
`isRunning`). -/
structure ChatStoreState where
  currentThreadId : String
  threads : List ChatThread
  isRunning : Bool
deriving DecidableEq

/-- `createInitialThread()` of chat-store.ts. -/
def createInitialThread (now : Nat) : ChatThread :=
  { id := "main", messages := [], model := "", createdAt := now, updatedAt := now,
    title := "New Chat", status := ThreadStatus.regular }

/-- Assignment `threads[t.id] = t` on the id-keyed record: replace the entry
with the same key, or append at the end when the key is new. -/
def setThread (threads : List ChatThread) (t : ChatThread) : List ChatThread :=
  if threads.any (fun u => u.id == t.id) then
    threads.map (fun u => if u.id = t.id then t else u)
  else threads ++ [t]

/-- `delete state.threads[id]` on the id-keyed record. -/
def removeThread (threads : List ChatThread) (id : String) : List ChatThread :=
  threads.filter (fun t => decide (t.id ≠ id))

/-- `Object.values(state.threads).filter((t) => t.status === "regular")`. -/
def regularOf (threads : List ChatThread) : List ChatThread :=
  threads.filter (fun t => decide (t.status = ThreadStatus.regular))

/-- The in-place update `state.threads[id].status = "archived";
state.threads[id].updatedAt = ...` expressed on the id-keyed record. -/
def archivedMap (threads : List ChatThread) (id : String) (now : Nat) : List ChatThread :=
  threads.map (fun t =>
    if t.id = id then { t with status := ThreadStatus.archived, updatedAt := now } else t)

/-- `deleteThread(id)` (chat-store.ts lines 287-310).  `newId` is the value
produced by `generateId()` when a replacement thread has to be synthesized. -/
def deleteThread (s : ChatStoreState) (id newId : String) (now : Nat) : ChatStoreState :=
  let remaining := removeThread s.threads id
  if s.currentThreadId = id then
    match regularOf remaining with
    | t :: _ => { s with threads := remaining, currentThreadId := t.id }
    | [] =>
      { s with threads := setThread remaining { createInitialThread now with id := newId },
               currentThreadId := newId }
  else { s with threads := remaining }

/-- `archiveThread(id)` (chat-store.ts lines 312-338). -/
def archiveThread (s : ChatStoreState) (id newId : String) (now : Nat) : ChatStoreState :=
  if s.threads.any (fun t => t.id == id) then
    let threads := archivedMap s.threads id now
    if s.currentThreadId = id then
      match regularOf threads with
      | t :: _ => { s with threads := threads, currentThreadId := t.id }
      | [] =>
        { s with threads := setThread threads { createInitialThread now with id := newId },
                 currentThreadId := newId }
    else { s with threads := threads }
  else s

/-! ## JavaScript string primitives, modelled over the character list -/

/-- JS `s.substring(0, n)`. -/
def jsCharsTake (s : String) (n : Nat) : String := String.mk (s.data.take n)

/-- JS `s.length`. -/
def jsLength (s : String) : Nat := s.data.length

/-- JS `s.includes(c)` for a one-character needle. -/
def jsIncludes (s : String) (c : Char) : Bool := s.data.contains c

/-- Character-level worker for JS `s.split(sep)` with a one-character
separator. -/
def jsSplitChars (sep : Char) : List Char → List (List Char)
  | [] => [[]]
  | c :: cs =>
    match jsSplitChars sep cs with
    | [] => [[]]
    | g :: gs => if c = sep then [] :: g :: gs else (c :: g) :: gs

/-- JS `s.split(sep)` with a one-character separator. -/
def jsSplit (s : String) (sep : Char) : List String := (jsSplitChars sep s.data).map String.mk

/-- JS `list.join("")`. -/
def joinFragments (l : List String) : String := l.foldl (fun a b => a ++ b) ""

/-- JS `list.join(" ")`. -/
def joinSpace : List String → String
  | [] => ""
  | [x] => x
  | x :: xs => x ++ " " ++ joinSpace xs

/-! ## ollama-external-runtime.tsx / ollama-project-runtime.tsx : adapter -/

/-- Ollama request message shape `{ role, content, images? }`; the `images`
key is present exactly when the option is `some`. -/
structure OllamaMsg where
  role : String
  content : String
  images : Option (List String) := none
deriving DecidableEq

/-- The prefix-stripping step of `convertToOllamaMessages`:
`c.image.includes(",") ? c.image.split(",")[1] : c.image`. -/
def stripDataUri (s : String) : String :=
  if jsIncludes s ',' then ((jsSplit s ',')[1]?).getD "" else s

/-- Text extraction of `convertToOllamaMessages`: a plain-string content is
used as is; a part array contributes the `text` of every part with
`type === "text"` and a string `text`, joined by `""`. -/
def messageText (content : MessageContent) : String :=
  match content with
  | MessageContent.str s => s
  | MessageContent.parts ps =>
    joinFragments ((ps.filter (fun c => c.type == "text" && c.text.isSome)).map
      (fun c => c.text.getD ""))

/-- Image extraction of `convertToOllamaMessages`: attachments of
`type === "image"`, flat-mapped over their content parts of
`type === "image"` with a string `image`, each stripped of its data-URI
prefix. -/
def messageImages (attachments : Option (List Attachment)) : List String :=
  ((attachments.getD []).filter (fun a => a.type == "image")).flatMap
    (fun a => (a.content.filter (fun c => c.type == "image" && c.image.isSome)).map
      (fun c => stripDataUri (c.image.getD "")))

/-- `convertToOllamaMessages` (identical in ollama-external-runtime.tsx lines
34-74 and ollama-project-runtime.tsx lines 39-79).  `content: textContent ||
""` is the identity on strings since the falsy string is `""` itself. -/
def convertToOllamaMessages (messages : List ThreadMessageLike) : List OllamaMsg :=
  messages.map (fun msg =>
    let textContent := messageText msg.content
    let imageContent := messageImages msg.attachments
    { role := if msg.role = Role.user then "user" else "assistant",
      content := textContent,
      images := if 0 < imageContent.length then some imageContent else none })

/-- The combined system prompt of the project runtime (lines 129-132):
`projectInstruction ? systemPrompt + "\n\n" + projectInstruction :
systemPrompt`. -/
def combinedSystemPrompt (systemPrompt projectInstruction : String) : String :=
  if projectInstruction ≠ "" then systemPrompt ++ "\n\n" ++ projectInstruction
  else systemPrompt

/-- The request message sequence assembled by the project runtime's
`streamOllamaResponse`: the system entry followed by the converted history. -/
def projectRequestMessages (systemPrompt projectInstruction : String)
    (msgs : List ThreadMessageLike) : List OllamaMsg :=
  { role := "system", content := combinedSystemPrompt systemPrompt projectInstruction }
    :: convertToOllamaMessages msgs

/-- The request message sequence assembled by the external runtime's
`streamOllamaResponse` (lines 115-125). -/
def externalRequestMessages (systemPrompt : String) (msgs : List ThreadMessageLike) :
    List OllamaMsg :=
  { role := "system", content := systemPrompt } :: convertToOllamaMessages msgs

/-- The streaming loop of `streamOllamaResponse` (lines 143-150):
`accumulatedText += delta` followed by an `updateMessage` with the
accumulated text, one emitted state per received chunk. -/
def streamLoop (acc : String) : List String → List String
  | [] => []
  | d :: ds => (acc ++ d) :: streamLoop (acc ++ d) ds

/-- The sequence of content states emitted while streaming `chunks`. -/
def streamChunkStates (chunks : List String) : List String := streamLoop "" chunks

/-- The final status written by `streamOllamaResponse`: on normal stream end
`{ type: "complete", reason: "stop" }`; when iteration throws an error with
message `e`, `{ type: "incomplete", reason: "error", error: e }`. -/
def streamFinalStatus (err : Option String) : MessageStatus :=
  match err with
  | none => { type := "complete", reason := some "stop" }
  | some e => { type := "incomplete", reason := some "error", error := some e }

/-- One streaming run: `chunks` are the fragments yielded before the stream
ended (normally, or by the iteration throwing when `err = some e`). -/
def streamRun (chunks : List String) (err : Option String) : List String × MessageStatus :=
  (streamChunkStates chunks, streamFinalStatus err)

/-- JS `array.findIndex(p)`, with `-1` embedded as `none`. -/
def jsFindIndex {α : Type} (p : α → Bool) : List α → Option Nat
  | [] => none
  | a :: l => if p a then some 0 else (jsFindIndex p l).map (· + 1)

/-- The optimistic assistant message created at the start of
`streamOllamaResponse` (lines 101-110). -/
def newAssistantMessage (assistantId : String) (now : Nat) : ThreadMessageLike :=
  { id := assistantId, role := Role.assistant,
    content := MessageContent.parts [{ type := "text", text := some "" }],
    createdAt := now, status := some { type := "running" } }

/-- The message sequence produced by `onReload` (lines 273-315) up to and
including the optimistic assistant append: truncate to the cutoff (`0` for a
null `parentId`, the parent's index plus one otherwise) and append the new
assistant message.  `none` models the early return when the parent id is not
found. -/
def onReloadMessages (msgs : List ThreadMessageLike) (parentId : Option String)
    (assistantId : String) (now : Nat) : Option (List ThreadMessageLike) :=
  let cutoff : Option Nat :=
    match parentId with
    | none => some 0
    | some pid => (jsFindIndex (fun m => m.id == pid) msgs).map (· + 1)
  cutoff.map (fun c => msgs.take c ++ [newAssistantMessage assistantId now])

/-- The edited user message created by `onEdit` (lines 350-356). -/
def editedUserMessage (editedId : String) (newContent : List ContentPart)
    (attachments : Option (List Attachment)) (now : Nat) : ThreadMessageLike :=
  { id := editedId, role := Role.user, content := MessageContent.parts newContent,
    createdAt := now, attachments := attachments }

/-- The message sequence produced by `onEdit` (lines 320-374) up to and
including the optimistic assistant append: truncate to everything up to and
including the parent (empty for a null `parentId`), append the edited user
message, then the new assistant message. -/
def onEditMessages (msgs : List ThreadMessageLike) (parentId : Option String)
    (newContent : List ContentPart) (attachments : Option (List Attachment))
    (editedId assistantId : String) (now : Nat) : Option (List ThreadMessageLike) :=
  let upTo : Option (List ThreadMessageLike) :=
    match parentId with
    | none => some []
    | some pid => (jsFindIndex (fun m => m.id == pid) msgs).map (fun i => msgs.take (i + 1))
  upTo.map (fun pre => pre ++ [editedUserMessage editedId newContent attachments now]
    ++ [newAssistantMessage assistantId now])

/-! ## chat-store.ts : title generation, addMessage, migration -/

/-- `generateThreadTitle` (chat-store.ts lines 127-149).  The truthiness test
`c.type === "text" && c.text` drops parts whose `text` is absent or the empty
string. -/
def generateThreadTitle (messages : List ThreadMessageLike) : String :=
  match messages.find? (fun m => m.role == Role.user) with
  | none => "New Chat"
  | some m =>
    let text :=
      match m.content with
      | MessageContent.str s => s
      | MessageContent.parts ps =>
        joinSpace ((ps.filter (fun c => c.type == "text" && !(c.text.getD "" == ""))).map
          (fun c => c.text.getD ""))
    let truncated := jsCharsTake text 50
    if jsLength truncated < jsLength text then truncated ++ "..."
    else if truncated == "" then "New Chat" else truncated

/-- The per-thread body of `addMessage` (chat-store.ts lines 384-397): push
onto the current thread's messages, refresh `updatedAt`, and derive the title
when the pushed message is a user message and is the thread's very first
message (`thread.messages.length === 1` after the push). -/
def appendMessageToThread (currentId : String) (message : ThreadMessageLike) (now : Nat)
    (t : ChatThread) : ChatThread :=
  if t.id = currentId then
    if message.role = Role.user ∧ (t.messages ++ [message]).length = 1 then
      { t with messages := t.messages ++ [message], updatedAt := now,
               title := generateThreadTitle (t.messages ++ [message]) }
    else { t with messages := t.messages ++ [message], updatedAt := now }
  else t

/-- `addMessage` proper: the guarded in-place mutation of the current thread,
no-op when the current id is absent from the record. -/
def addMessage (s : ChatStoreState) (message : ThreadMessageLike) (now : Nat) : ChatStoreState :=
  if s.threads.any (fun t => t.id == s.currentThreadId) then
    { s with threads := s.threads.map (appendMessageToThread s.currentThreadId message now) }
  else s

/-- A thread entry of the legacy persisted document, with every field
possibly absent. -/
structure OldThreadData where
  messages : Option (List ThreadMessageLike) := none
  model : Option String := none
  createdAt : Option Nat := none
  updatedAt : Option Nat := none
deriving DecidableEq

/-- The parsed legacy document under the old storage key
`"ollama-threads-storage"` (its `threads` field, keyed by id). -/
structure OldPersisted where
  threads : List (String × OldThreadData)
deriving DecidableEq

/-- One entry of the legacy-to-current conversion inside `migrateOldData`
(chat-store.ts lines 176-186). -/
def migrateThreadEntry (now : Nat) (e : String × OldThreadData) : ChatThread :=
  { id := e.1,
    messages := e.2.messages.getD [],
    model := e.2.model.getD "",
    createdAt := e.2.createdAt.getD now,
    updatedAt := e.2.updatedAt.getD now,
    title := generateThreadTitle (e.2.messages.getD []),
    status := ThreadStatus.regular }

/-- `migrateOldData` (chat-store.ts lines 154-201), as a function of the
legacy storage slot: returns the migrated thread record (or `none` when the
legacy key is absent) together with the legacy slot after the call
(`localStorage.removeItem(oldKey)` clears it whenever data was present). -/
def migrateOldData (stored : Option OldPersisted) (now : Nat) :
    Option (List ChatThread) × Option OldPersisted :=
  match stored with
  | none => (none, none)
  | some parsed => (some (parsed.threads.map (migrateThreadEntry now)), none)

/-! ## thread-storage.ts : saveThreads and the aggressive-cleanup fallback -/

/-- Outcome of one `localStorage.setItem` attempt: success, a
`QuotaExceededError`, or any other error. -/
inductive WriteResult where
  | ok
  | quotaExceeded
  | otherError
deriving DecidableEq

/-- `PersistedThreadsData` of thread-storage.ts. -/
structure PersistedThreadsData where
  threads : List ThreadData
  mainThreadId : Option String
  savedAt : Nat
  version : String
deriving DecidableEq

/-- `msg => ({ ...msg, attachments: [] })` of `tryAggressiveCleanup`. -/
def stripMessageAttachments (m : ThreadMessageLike) : ThreadMessageLike :=
  { m with attachments := some [] }

/-- The per-thread attachment strip of `tryAggressiveCleanup` (lines
182-193). -/
def stripThreadAttachments (t : ThreadData) : ThreadData :=
  { t with messages := t.messages.map stripMessageAttachments }

/-- `tryAggressiveCleanup` (thread-storage.ts lines 172-211) as a function of
the storage slot and the outcome of its single retry write.  Returns the
resulting storage slot and how many write attempts it performed (0 when
`loadThreads()` returned null, 1 otherwise; a failing retry is caught and
only logged, leaving storage unchanged). -/
def tryAggressiveCleanup (stored : Option PersistedThreadsData) (retry : WriteResult)
    (now : Nat) : Option PersistedThreadsData × Nat :=
  match stored with
  | none => (none, 0)
  | some data =>
    let reducedMax := STORAGE_CONFIG_maxThreads / 2
    let cleanedThreads := cleanupOldThreads data.threads reducedMax
    let threadsWithoutImages := cleanedThreads.map stripThreadAttachments
    match retry with
    | WriteResult.ok =>
      (some { threads := threadsWithoutImages, mainThreadId := data.mainThreadId,
              savedAt := now, version := "1.0" }, 1)
    | _ => (some data, 1)

/-- Assignment `{...existing?.threads, [threadId]: thread}` on the id-keyed
record. -/
def setThreadData (threads : List ThreadData) (t : ThreadData) : List ThreadData :=
  if threads.any (fun u => u.id == t.id) then
    threads.map (fun u => if u.id = t.id then t else u)
  else threads ++ [t]

/-- `saveThreads` (thread-storage.ts lines 44-98) as a function of the
storage slot and the outcomes of its first write and of the aggressive-retry
write.  Returns the resulting storage slot and the total number of write
attempts.  A `QuotaExceededError` triggers `tryAggressiveCleanup`, which
reloads the previously persisted data; any other failure is caught and only
logged. -/
def saveThreads (stored : Option PersistedThreadsData) (threadId : String)
    (messages : List ThreadMessageLike) (model : Option String)
    (w1 retry : WriteResult) (now : Nat) : Option PersistedThreadsData × Nat :=
  let existingThreads := (stored.map PersistedThreadsData.threads).getD []
  let createdAt :=
    match existingThreads.find? (fun t => t.id == threadId) with
    | some t => t.createdAt
    | none => now
  let thread : ThreadData :=
    { id := threadId, messages := messages, createdAt := createdAt, updatedAt := now,
      model := model }
  let updatedThreads := setThreadData existingThreads thread
  let cleanedThreads := cleanupOldThreads updatedThreads STORAGE_CONFIG_maxThreads
  let persistedData : PersistedThreadsData :=
    { threads := cleanedThreads, mainThreadId := some threadId, savedAt := now,
      version := "1.0" }
  match w1 with
  | WriteResult.ok => (some persistedData, 1)
  | WriteResult.quotaExceeded =>
    let r := tryAggressiveCleanup stored retry now
    (r.1, 1 + r.2)
  | WriteResult.otherError => (stored, 1)

/-! ## Theorems: retention cleanup (C1) -/

/-- C1: retention cleanup keeps the record unchanged when its size is at most
the maximum (default 10), and otherwise returns exactly `maxThreads` threads,
all drawn from the input, such that every discarded thread's `updatedAt` is at
most every retained thread's `updatedAt`. -/
theorem cleanupOldThreads_spec (threads : List ThreadData) (maxThreads : Nat) :
    STORAGE_CONFIG_maxThreads = 10 ∧
    (threads.length ≤ maxThreads → cleanupOldThreads threads maxThreads = threads) ∧
    (maxThreads < threads.length →
      (cleanupOldThreads threads maxThreads).length = maxThreads ∧
      (∀ t ∈ cleanupOldThreads threads maxThreads, t ∈ threads) ∧
      (∀ t ∈ cleanupOldThreads threads maxThreads, ∀ u ∈ threads,
          u ∉ cleanupOldThreads threads maxThreads → u.updatedAt ≤ t.updatedAt)) := by
  refine ⟨rfl, fun h => by simp [cleanupOldThreads, h], fun h => ?_⟩
  have hnle : ¬ threads.length ≤ maxThreads := Nat.not_le.mpr h
  have heq : cleanupOldThreads threads maxThreads
      = (threads.mergeSort (fun a b => decide (b.updatedAt ≤ a.updatedAt))).take maxThreads := by
    simp [cleanupOldThreads, hnle]
  refine ⟨?_, ?_, ?_⟩
  · rw [heq, List.length_take, List.length_mergeSort]
    exact Nat.min_eq_left h.le
  · intro t ht
    rw [heq] at ht
    exact List.mem_mergeSort.mp (List.mem_of_mem_take ht)
  · intro t ht u hu hnotk
    have hsorted : (threads.mergeSort (fun a b => decide (b.updatedAt ≤ a.updatedAt))).Pairwise
        (fun a b => decide (b.updatedAt ≤ a.updatedAt)) := by
      refine List.sorted_mergeSort ?_ ?_ threads
      · intro a b c hab hbc
        simp only [decide_eq_true_eq] at *
        exact Nat.le_trans hbc hab
      · intro a b
        simp only [Bool.or_eq_true, decide_eq_true_eq]
        exact Nat.le_total b.updatedAt a.updatedAt
    have hsplit : threads.mergeSort (fun a b => decide (b.updatedAt ≤ a.updatedAt))
        = (threads.mergeSort (fun a b => decide (b.updatedAt ≤ a.updatedAt))).take maxThreads
          ++ (threads.mergeSort (fun a b => decide (b.updatedAt ≤ a.updatedAt))).drop maxThreads :=
      (List.take_append_drop _ _).symm
    rw [hsplit] at hsorted
    obtain ⟨-, -, hcross⟩ := List.pairwise_append.mp hsorted
    have humem : u ∈ threads.mergeSort (fun a b => decide (b.updatedAt ≤ a.updatedAt)) :=
      List.mem_mergeSort.mpr hu
    rw [hsplit] at humem
    rcases List.mem_append.mp humem with hul | hur
    · exact absurd (heq ▸ hul) hnotk
    · have := hcross t (heq ▸ ht) u hur
      simpa using this

/-- Witness for `cleanupOldThreads_spec`: three threads, maximum 2. -/
theorem cleanupOldThreads_spec_witness :
    (cleanupOldThreads
      [{ id := "a", messages := [], createdAt := 0, updatedAt := 5 },
       { id := "b", messages := [], createdAt := 0, updatedAt := 1 },
       { id := "c", messages := [], createdAt := 0, updatedAt := 3 }] 2).length = 2 :=
  ((cleanupOldThreads_spec
      [{ id := "a", messages := [], createdAt := 0, updatedAt := 5 },
       { id := "b", messages := [], createdAt := 0, updatedAt := 1 },
       { id := "c", messages := [], createdAt := 0, updatedAt := 3 }] 2).2.2
    (by decide)).1

/-! ## Theorems: delete / archive reselection (C2) -/

/-- The freshly assigned thread is always present in the updated record. -/
theorem setThread_self_mem (threads : List ChatThread) (t : ChatThread) :
    t ∈ setThread threads t := by
  unfold setThread
  by_cases h : threads.any (fun u => u.id == t.id)
  · simp only [h, if_true]
    obtain ⟨u, hu, hid⟩ := List.any_eq_true.mp h
    refine List.mem_map.mpr ⟨u, hu, ?_⟩
    rw [beq_iff_eq] at hid
    simp [hid]
  · simp [h]

/-- Updating the record at an id present in it does not remove any key. -/
theorem archivedMap_mem_id (threads : List ChatThread) (id : String) (now : Nat) :
    ∀ t ∈ threads, ∃ u ∈ archivedMap threads id now, u.id = t.id := by
  intro t ht
  refine ⟨if t.id = id then { t with status := ThreadStatus.archived, updatedAt := now } else t,
    List.mem_map.mpr ⟨t, ht, rfl⟩, ?_⟩
  by_cases hcase : t.id = id <;> simp [hcase]

/-- C2: assuming the store invariant (the current pointer names an existing
thread) and freshness of the generated id, `deleteThread` leaves a non-empty
thread record with a valid current pointer; when the deleted thread was
current, the first remaining regular-status thread becomes current, and if
none remains a fresh empty thread with the generated id is added and selected.
`archiveThread` gives the same reselection guarantees without removing any
thread, marking the target archived. -/
theorem deleteThread_archiveThread_safety (s : ChatStoreState) (id newId : String) (now : Nat)
    (hinv : ∃ t ∈ s.threads, t.id = s.currentThreadId)
    (hfresh : ∀ t ∈ s.threads, t.id ≠ newId) :
    ((deleteThread s id newId now).threads ≠ [] ∧
     (∃ t ∈ (deleteThread s id newId now).threads,
        t.id = (deleteThread s id newId now).currentThreadId) ∧
     (s.currentThreadId = id →
       (∀ t0, (regularOf (removeThread s.threads id)).head? = some t0 →
          (deleteThread s id newId now).currentThreadId = t0.id) ∧
       (regularOf (removeThread s.threads id) = [] →
          (deleteThread s id newId now).currentThreadId = newId ∧
          ∃ t ∈ (deleteThread s id newId now).threads, t.id = newId ∧ t.messages = []))) ∧
    ((archiveThread s id newId now).threads ≠ [] ∧
     (∃ t ∈ (archiveThread s id newId now).threads,
        t.id = (archiveThread s id newId now).currentThreadId) ∧
     (∀ t ∈ s.threads, ∃ u ∈ (archiveThread s id newId now).threads, u.id = t.id) ∧
     (s.threads.any (fun t => t.id == id) = true →
        (∃ u ∈ (archiveThread s id newId now).threads,
           u.id = id ∧ u.status = ThreadStatus.archived) ∧
        (s.currentThreadId = id →
          (∀ t0, (regularOf (archivedMap s.threads id now)).head? = some t0 →
             (archiveThread s id newId now).currentThreadId = t0.id) ∧
          (regularOf (archivedMap s.threads id now) = [] →
             (archiveThread s id newId now).currentThreadId = newId)))) := by
  obtain ⟨tc, htc, htcid⟩ := hinv
  constructor
  · -- deleteThread
    by_cases hcur : s.currentThreadId = id
    · cases hreg : regularOf (removeThread s.threads id) with
      | nil =>
        have hres : deleteThread s id newId now
            = { s with
                threads := setThread (removeThread s.threads id)
                  { createInitialThread now with id := newId },
                currentThreadId := newId } := by
          unfold deleteThread
          rw [if_pos hcur, hreg]
        have hm := setThread_self_mem (removeThread s.threads id)
          { createInitialThread now with id := newId }
        rw [hres]
        exact ⟨List.ne_nil_of_mem hm, ⟨_, hm, rfl⟩,
          fun _ => ⟨fun t0 h0 => absurd h0 (by simp), fun _ => ⟨rfl, _, hm, rfl, rfl⟩⟩⟩
      | cons t0 rest =>
        have hres : deleteThread s id newId now
            = { s with threads := removeThread s.threads id, currentThreadId := t0.id } := by
          unfold deleteThread
          rw [if_pos hcur, hreg]
        have ht0 : t0 ∈ removeThread s.threads id := by
          have hmem : t0 ∈ regularOf (removeThread s.threads id) := by
            rw [hreg]; exact List.mem_cons_self _ _
          exact (List.mem_filter.mp hmem).1
        rw [hres]
        refine ⟨List.ne_nil_of_mem ht0, ⟨t0, ht0, rfl⟩,
          fun _ => ⟨?_, fun hnil => absurd hnil (by simp)⟩⟩
        intro t1 h1
        simp only [List.head?_cons, Option.some.injEq] at h1
        exact congrArg ChatThread.id h1
    · have hres : deleteThread s id newId now
          = { s with threads := removeThread s.threads id } := by
        unfold deleteThread
        rw [if_neg hcur]
      have htcmem : tc ∈ removeThread s.threads id := by
        refine List.mem_filter.mpr ⟨htc, ?_⟩
        simp only [decide_eq_true_eq]
        rw [htcid]; exact hcur
      rw [hres]
      exact ⟨List.ne_nil_of_mem htcmem, ⟨tc, htcmem, htcid⟩,
        fun hcontra => absurd hcontra hcur⟩
  · -- archiveThread
    by_cases hany : s.threads.any (fun t => t.id == id)
    · obtain ⟨ta, hta, htaid⟩ := List.any_eq_true.mp hany
      rw [beq_iff_eq] at htaid
      have harch : ({ ta with status := ThreadStatus.archived, updatedAt := now } : ChatThread)
          ∈ archivedMap s.threads id now := by
        refine List.mem_map.mpr ⟨ta, hta, ?_⟩
        rw [if_pos htaid]
      by_cases hcur : s.currentThreadId = id
      · cases hreg : regularOf (archivedMap s.threads id now) with
        | nil =>
          have hfreshmap : ∀ u ∈ archivedMap s.threads id now, u.id ≠ newId := by
            intro u hu
            obtain ⟨t, ht, hft⟩ := List.mem_map.mp hu
            have hid : u.id = t.id := by
              rw [← hft]; by_cases hcase : t.id = id <;> simp [hcase]
            rw [hid]; exact hfresh t ht
          have hset : setThread (archivedMap s.threads id now)
              { createInitialThread now with id := newId }
              = archivedMap s.threads id now ++ [{ createInitialThread now with id := newId }] := by
            unfold setThread
            rw [if_neg]
            intro hcontra
            obtain ⟨u, hu, he⟩ := List.any_eq_true.mp hcontra
            exact hfreshmap u hu (beq_iff_eq.mp he)
          have hres : archiveThread s id newId now
              = { s with
                  threads := setThread (archivedMap s.threads id now)
                    { createInitialThread now with id := newId },
                  currentThreadId := newId } := by
            unfold archiveThread
            rw [if_pos hany, if_pos hcur, hreg]
          have hm := setThread_self_mem (archivedMap s.threads id now)
            { createInitialThread now with id := newId }
          rw [hres, hset]
          refine ⟨by simp, ⟨_, List.mem_append_right _ (List.mem_cons_self _ _), rfl⟩,
            ?_, fun _ => ⟨⟨_, List.mem_append_left _ harch, htaid, rfl⟩,
              fun _ => ⟨fun t0 h0 => absurd h0 (by simp), fun _ => rfl⟩⟩⟩
          intro t ht
          obtain ⟨u, hu, huid⟩ := archivedMap_mem_id s.threads id now t ht
          exact ⟨u, List.mem_append_left _ hu, huid⟩
        | cons t0 rest =>
          have hres : archiveThread s id newId now
              = { s with threads := archivedMap s.threads id now,
                         currentThreadId := t0.id } := by
            unfold archiveThread
            rw [if_pos hany, if_pos hcur, hreg]
          have ht0 : t0 ∈ archivedMap s.threads id now := by
            have hmem : t0 ∈ regularOf (archivedMap s.threads id now) := by
              rw [hreg]; exact List.mem_cons_self _ _
            exact (List.mem_filter.mp hmem).1
          rw [hres]
          refine ⟨List.ne_nil_of_mem ht0, ⟨t0, ht0, rfl⟩, archivedMap_mem_id s.threads id now,
            fun _ => ⟨⟨_, harch, htaid, rfl⟩,
              fun _ => ⟨?_, fun hnil => absurd hnil (by simp)⟩⟩⟩
          intro t1 h1
          simp only [List.head?_cons, Option.some.injEq] at h1
          exact congrArg ChatThread.id h1
      · have hres : archiveThread s id newId now
            = { s with threads := archivedMap s.threads id now } := by
          unfold archiveThread
          rw [if_pos hany, if_neg hcur]
        obtain ⟨uc, huc, hucid⟩ := archivedMap_mem_id s.threads id now tc htc
        rw [hres]
        exact ⟨List.ne_nil_of_mem huc, ⟨uc, huc, hucid.trans htcid⟩,
          archivedMap_mem_id s.threads id now,
          fun _ => ⟨⟨_, harch, htaid, rfl⟩, fun hcontra => absurd hcontra hcur⟩⟩
    · have hres : archiveThread s id newId now = s := by
        unfold archiveThread
        rw [if_neg hany]
      rw [hres]
      exact ⟨List.ne_nil_of_mem htc, ⟨tc, htc, htcid⟩, fun t ht => ⟨t, ht, rfl⟩,
        fun hcontra => absurd hcontra hany⟩

/-- Witness for `deleteThread_archiveThread_safety`: deleting the only
(current) thread of a one-thread store. -/
theorem deleteThread_archiveThread_safety_witness :
    ∃ t ∈ (deleteThread
        { currentThreadId := "main",
          threads := [{ id := "main", messages := [], model := "", createdAt := 0,
                        updatedAt := 0, title := "New Chat", status := ThreadStatus.regular }],
          isRunning := false } "main" "n2" 7).threads,
      t.id = (deleteThread
        { currentThreadId := "main",
          threads := [{ id := "main", messages := [], model := "", createdAt := 0,
                        updatedAt := 0, title := "New Chat", status := ThreadStatus.regular }],
          isRunning := false } "main" "n2" 7).currentThreadId :=
  (deleteThread_archiveThread_safety
    { currentThreadId := "main",
      threads := [{ id := "main", messages := [], model := "", createdAt := 0,
                    updatedAt := 0, title := "New Chat", status := ThreadStatus.regular }],
      isRunning := false } "main" "n2" 7 (by decide) (by decide)).1.2.1

/-! ## Theorems: streaming accumulation (C5) -/

/-- Folding string append over `l` from `a ++ b` prepends `a` to the fold
from `b`. -/
theorem foldl_strAppend (l : List String) : ∀ a b : String,
    l.foldl (fun x y => x ++ y) (a ++ b) = a ++ l.foldl (fun x y => x ++ y) b := by
  induction l with
  | nil => intro a b; rfl
  | cons d ds ih =>
    intro a b
    show ds.foldl (fun x y => x ++ y) (a ++ b ++ d) = a ++ ds.foldl (fun x y => x ++ y) (b ++ d)
    rw [String.append_assoc, ih]

/-- `join("")` distributes over the head of the list. -/
theorem joinFragments_cons (x : String) (xs : List String) :
    joinFragments (x :: xs) = x ++ joinFragments xs := by
  show xs.foldl (fun a b => a ++ b) ("" ++ x) = x ++ xs.foldl (fun a b => a ++ b) ""
  have h1 : ("" : String) ++ x = x ++ "" := by simp
  rw [h1, foldl_strAppend]

/-- The streaming loop emits one state per chunk. -/
theorem streamLoop_length (chunks : List String) : ∀ acc : String,
    (streamLoop acc chunks).length = chunks.length := by
  induction chunks with
  | nil => intro acc; rfl
  | cons d ds ih => intro acc; simp [streamLoop, ih]

/-- The `i`-th emitted state of the streaming loop is the accumulator
followed by the concatenation of the first `i + 1` chunks. -/
theorem streamLoop_getElem (chunks : List String) : ∀ (acc : String) (i : Nat),
    i < chunks.length →
    (streamLoop acc chunks)[i]? = some (acc ++ joinFragments (chunks.take (i + 1))) := by
  induction chunks with
  | nil => intro acc i h; exact absurd h (by simp)
  | cons d ds ih =>
    intro acc i h
    cases i with
    | zero =>
      have h1 : joinFragments (List.take (0 + 1) (d :: ds)) = "" ++ d := rfl
      simp only [streamLoop, List.getElem?_cons_zero, h1]
      simp
    | succ j =>
      have hj : j < ds.length := by simpa using h
      simp only [streamLoop, List.getElem?_cons_succ]
      rw [ih (acc ++ d) j hj, List.take_succ_cons, joinFragments_cons, String.append_assoc]

/-- C5 (amended): after the `i`-th chunk the emitted content is the
concatenation of chunks 1 through `i`; the status is `complete` (with reason
`"stop"`) exactly when iteration ends without error; when iteration throws
with message `e`, the status is `incomplete` with reason `"error"` and the
message recorded in the status's `error` field. -/
theorem streamRun_spec (chunks : List String) (err : Option String) :
    (streamRun chunks err).1.length = chunks.length ∧
    (∀ i : Nat, i < chunks.length →
      (streamRun chunks err).1[i]? = some (joinFragments (chunks.take (i + 1)))) ∧
    ((streamRun chunks err).2.type = "complete" ↔ err = none) ∧
    (err = none → (streamRun chunks err).2
      = { type := "complete", reason := some "stop", error := none }) ∧
    (∀ e, err = some e → (streamRun chunks err).2
      = { type := "incomplete", reason := some "error", error := some e }) := by
  refine ⟨streamLoop_length chunks "", ?_, ?_, ?_, ?_⟩
  · intro i h
    have h2 : (streamRun chunks err).1 = streamLoop "" chunks := rfl
    rw [h2, streamLoop_getElem chunks "" i h]
    simp
  · cases err <;> simp [streamRun, streamFinalStatus]
  · intro h; rw [h]; rfl
  · intro e h; rw [h]; rfl

/-- Witness for `streamRun_spec`: the fragments `["Hel", "lo"]` emit
`"Hel"` then `"Hello"`. -/
theorem streamRun_spec_witness :
    (streamRun ["Hel", "lo"] none).1[1]?
      = some (joinFragments (["Hel", "lo"].take 2)) :=
  (streamRun_spec ["Hel", "lo"] none).2.1 1 (by decide)

/-- C5 counterexample: when iteration throws with message `"boom"`, the
status's `reason` field is `"error"`, not the thrown message. -/
theorem streamRun_reason_counterexample :
    (streamRun [] (some "boom")).2.reason = some "error" ∧
    (streamRun [] (some "boom")).2.reason ≠ some "boom" ∧
    (streamRun [] (some "boom")).2.error = some "boom" := by
  refine ⟨rfl, ?_, rfl⟩
  intro h
  simp [streamRun, streamFinalStatus] at h

/-! ## Theorems: reload / edit truncation (C4) -/

/-- C4: on the history `[A(user), B(assistant), C(user), D(assistant)]`,
reload from `B` truncates to `[A, B]` and appends a fresh assistant message
(discarding `C`, `D`); edit at `A` truncates to `[A]`, appends the edited
user message and then a fresh assistant message; in both operations a null
`parentId` truncates the history to empty before appending. -/
theorem onReload_onEdit_spec
    (A B C D : ThreadMessageLike)
    (hA : A.role = Role.user) (hB : B.role = Role.assistant)
    (hC : C.role = Role.user) (hD : D.role = Role.assistant)
    (hids : ([A.id, B.id, C.id, D.id] : List String).Nodup)
    (newContent : List ContentPart) (atts : Option (List Attachment))
    (editedId assistantId : String) (now : Nat) :
    onReloadMessages [A, B, C, D] (some B.id) assistantId now
      = some [A, B, newAssistantMessage assistantId now] ∧
    onEditMessages [A, B, C, D] (some A.id) newContent atts editedId assistantId now
      = some [A, editedUserMessage editedId newContent atts now,
              newAssistantMessage assistantId now] ∧
    onReloadMessages [A, B, C, D] none assistantId now
      = some [newAssistantMessage assistantId now] ∧
    onEditMessages [A, B, C, D] none newContent atts editedId assistantId now
      = some [editedUserMessage editedId newContent atts now,
              newAssistantMessage assistantId now] := by
  have hAB : A.id ≠ B.id := by
    intro hcontra
    simp [hcontra] at hids
  refine ⟨?_, ?_, rfl, rfl⟩
  · simp only [onReloadMessages, jsFindIndex]
    rw [if_neg (by simpa using hAB), if_pos (by simp)]
    rfl
  · simp only [onEditMessages, jsFindIndex]
    rw [if_pos (by simp)]
    rfl

/-- Witness for `onReload_onEdit_spec`: a concrete four-message history. -/
theorem onReload_onEdit_spec_witness :
    onReloadMessages
      [{ id := "a", role := Role.user, content := MessageContent.str "q1" },
       { id := "b", role := Role.assistant, content := MessageContent.str "r1" },
       { id := "c", role := Role.user, content := MessageContent.str "q2" },
       { id := "d", role := Role.assistant, content := MessageContent.str "r2" }]
      (some "b") "asst9" 3
      = some [{ id := "a", role := Role.user, content := MessageContent.str "q1" },
              { id := "b", role := Role.assistant, content := MessageContent.str "r1" },
              newAssistantMessage "asst9" 3] :=
  (onReload_onEdit_spec
    { id := "a", role := Role.user, content := MessageContent.str "q1" }
    { id := "b", role := Role.assistant, content := MessageContent.str "r1" }
    { id := "c", role := Role.user, content := MessageContent.str "q2" }
    { id := "d", role := Role.assistant, content := MessageContent.str "r2" }
    rfl rfl rfl rfl (by decide) [] none "e9" "asst9" 3).1

/-! ## Theorems: request transform content and images (C6), role mapping (C10) -/

/-- C6: the request transform keeps positions, maps each message's content to
the extracted text (a plain string as is, else the `""`-joined text parts),
omits the `images` key exactly when no image content is extracted and
otherwise carries the stripped base64 payloads; the message with one text
part `"hello"` and no attachments maps to `{role: "user", content: "hello"}`
with no `images` key, and the data-URI prefix strip leaves raw base64. -/
theorem convertToOllamaMessages_spec :
    (∀ (msgs : List ThreadMessageLike) (i : Nat) (msg : ThreadMessageLike),
      msgs[i]? = some msg →
      ∃ om : OllamaMsg, (convertToOllamaMessages msgs)[i]? = some om ∧
        om.content = messageText msg.content ∧
        (om.images = none ↔ messageImages msg.attachments = []) ∧
        (messageImages msg.attachments ≠ [] →
          om.images = some (messageImages msg.attachments))) ∧
    convertToOllamaMessages
      [{ id := "m1", role := Role.user,
         content := MessageContent.parts [{ type := "text", text := some "hello" }] }]
      = [{ role := "user", content := "hello" }] ∧
    stripDataUri "data:image/png;base64,QUJD" = "QUJD" := by
  refine ⟨?_, by decide, by decide⟩
  intro msgs i msg h
  have hm : (convertToOllamaMessages msgs)[i]?
      = some { role := if msg.role = Role.user then "user" else "assistant",
               content := messageText msg.content,
               images := if 0 < (messageImages msg.attachments).length
                 then some (messageImages msg.attachments) else none } := by
    simp only [convertToOllamaMessages, List.getElem?_map, h, Option.map_some']
  refine ⟨_, hm, rfl, ?_, ?_⟩
  · rcases him : messageImages msg.attachments with _ | ⟨x, xs⟩ <;> simp [him]
  · intro hne
    rcases him : messageImages msg.attachments with _ | ⟨x, xs⟩
    · exact absurd him hne
    · simp [him]

/-- Witness for `convertToOllamaMessages_spec`: one user message with a text
part and no attachments. -/
theorem convertToOllamaMessages_spec_witness :
    ∃ om : OllamaMsg,
      (convertToOllamaMessages
        [{ id := "m1", role := Role.user,
           content := MessageContent.parts [{ type := "text", text := some "hi" }] }])[0]?
        = some om ∧
      om.content = messageText (MessageContent.parts [{ type := "text", text := some "hi" }]) ∧
      (om.images = none ↔ messageImages none = []) ∧
      (messageImages none ≠ [] → om.images = some (messageImages none)) :=
  convertToOllamaMessages_spec.1
    [{ id := "m1", role := Role.user,
       content := MessageContent.parts [{ type := "text", text := some "hi" }] }]
    0
    { id := "m1", role := Role.user,
      content := MessageContent.parts [{ type := "text", text := some "hi" }] }
    rfl

/-- C10: the outgoing role is `"user"` exactly when the stored role is
`user`; every other stored role, the `system` role included, is sent as
`"assistant"`. -/
theorem convertToOllamaMessages_role_spec (msgs : List ThreadMessageLike) (i : Nat)
    (msg : ThreadMessageLike) (h : msgs[i]? = some msg) :
    ∃ om : OllamaMsg, (convertToOllamaMessages msgs)[i]? = some om ∧
      (om.role = "user" ↔ msg.role = Role.user) ∧
      (msg.role ≠ Role.user → om.role = "assistant") ∧
      (msg.role = Role.system → om.role = "assistant") := by
  have hm : (convertToOllamaMessages msgs)[i]?
      = some { role := if msg.role = Role.user then "user" else "assistant",
               content := messageText msg.content,
               images := if 0 < (messageImages msg.attachments).length
                 then some (messageImages msg.attachments) else none } := by
    simp only [convertToOllamaMessages, List.getElem?_map, h, Option.map_some']
  refine ⟨_, hm, ?_, ?_, ?_⟩
  · by_cases hr : msg.role = Role.user <;> simp [hr]
  · intro hr; simp [hr]
  · intro hs
    rw [hs]
    simp

/-- Witness for `convertToOllamaMessages_role_spec`: a stored system-role
message is sent with role `"assistant"`. -/
theorem convertToOllamaMessages_role_spec_witness :
    ∃ om : OllamaMsg,
      (convertToOllamaMessages
        [{ id := "s1", role := Role.system, content := MessageContent.str "be nice" }])[0]?
        = some om ∧
      (om.role = "user" ↔ Role.system = Role.user) ∧
      (Role.system ≠ Role.user → om.role = "assistant") ∧
      (Role.system = Role.system → om.role = "assistant") :=
  convertToOllamaMessages_role_spec
    [{ id := "s1", role := Role.system, content := MessageContent.str "be nice" }]
    0
    { id := "s1", role := Role.system, content := MessageContent.str "be nice" }
    rfl

/-! ## Theorems: system prompt prepending (C9) -/

/-- C9: both runtimes prepend a system-role entry as the first request
message; in the project runtime its content is the base system prompt joined
to the project instruction by a blank line when the instruction is non-empty
and the base prompt alone otherwise, and in the external runtime it is always
the base prompt alone, followed in both cases by the converted history. -/
theorem systemPromptPrepend_spec (systemPrompt projectInstruction : String)
    (msgs : List ThreadMessageLike) :
    (∃ m rest, projectRequestMessages systemPrompt projectInstruction msgs = m :: rest ∧
      m.role = "system" ∧ rest = convertToOllamaMessages msgs ∧
      (projectInstruction = "" → m.content = systemPrompt) ∧
      (projectInstruction ≠ "" →
        m.content = systemPrompt ++ "\n\n" ++ projectInstruction)) ∧
    externalRequestMessages systemPrompt msgs
      = { role := "system", content := systemPrompt } :: convertToOllamaMessages msgs := by
  refine ⟨⟨_, _, rfl, rfl, rfl, ?_, ?_⟩, rfl⟩ <;>
    intro h <;> simp [combinedSystemPrompt, h]

/-- Witness for `systemPromptPrepend_spec`: a non-empty project
instruction. -/
theorem systemPromptPrepend_spec_witness :
    ∃ m rest, projectRequestMessages "You are a helpful assistance." "Be terse." [] = m :: rest ∧
      m.role = "system" ∧ rest = convertToOllamaMessages [] ∧
      ("Be terse." = "" → m.content = "You are a helpful assistance.") ∧
      ("Be terse." ≠ "" →
        m.content = "You are a helpful assistance." ++ "\n\n" ++ "Be terse.") :=
  (systemPromptPrepend_spec "You are a helpful assistance." "Be terse." []).1

/-! ## Theorems: title derivation on append (C7) -/

/-- `String.mk` of the character data is the string itself. -/
theorem strMk_data (s : String) : String.mk s.data = s := rfl

/-- The per-thread append never changes a thread's id. -/
theorem appendMessageToThread_id (currentId : String) (message : ThreadMessageLike)
    (now : Nat) (u : ChatThread) :
    (appendMessageToThread currentId message now u).id = u.id := by
  unfold appendMessageToThread
  by_cases hc : u.id = currentId
  · rw [if_pos hc]
    split_ifs <;> rfl
  · rw [if_neg hc]

/-- C7 counterexample: a thread already holding one assistant message keeps
its placeholder title when its first user-role message `"hello"` is appended,
instead of deriving the title from that message. -/
theorem addMessage_title_counterexample :
    ((addMessage
        { currentThreadId := "main",
          threads := [{ id := "main",
                        messages := [{ id := "a1", role := Role.assistant,
                                       content := MessageContent.str "hi" }],
                        model := "", createdAt := 0, updatedAt := 0, title := "New Chat",
                        status := ThreadStatus.regular }],
          isRunning := false }
        { id := "u1", role := Role.user, content := MessageContent.str "hello" }
        5).threads.map ChatThread.title) = ["New Chat"] ∧
    ("New Chat" : String) ≠ "hello" := by
  constructor
  · rfl
  · decide

/-- C7 (amended): when `addMessage` appends a user message to the current
thread and that message is the thread's very first message, the title is
derived from it; appending to a non-empty thread, or appending a non-user
message, keeps the existing title.  Derivation truncates a text longer than
50 characters to its first 50 followed by `"..."`, uses a non-empty text of
at most 50 characters as is, and yields the placeholder `"New Chat"` when no
user message exists. -/
theorem addMessage_title_spec (s : ChatStoreState) (msg : ThreadMessageLike) (now : Nat)
    (t : ChatThread)
    (ht : s.threads.find? (fun u => u.id == s.currentThreadId) = some t) :
    (∃ t1, (addMessage s msg now).threads.find? (fun u => u.id == s.currentThreadId)
        = some t1 ∧
      t1.messages = t.messages ++ [msg] ∧ t1.updatedAt = now ∧
      (t.messages = [] ∧ msg.role = Role.user →
        t1.title = generateThreadTitle [msg]) ∧
      (¬(t.messages = [] ∧ msg.role = Role.user) → t1.title = t.title)) ∧
    (∀ text : String, 50 < jsLength text →
      generateThreadTitle [{ id := "u", role := Role.user, content := MessageContent.str text }]
        = jsCharsTake text 50 ++ "...") ∧
    (∀ text : String, text ≠ "" → jsLength text ≤ 50 →
      generateThreadTitle [{ id := "u", role := Role.user, content := MessageContent.str text }]
        = text) ∧
    (∀ msgs : List ThreadMessageLike, (∀ m ∈ msgs, m.role ≠ Role.user) →
      generateThreadTitle msgs = "New Chat") := by
  have hdefTitle : ∀ text : String,
      generateThreadTitle [{ id := "u", role := Role.user, content := MessageContent.str text }]
        = (if jsLength (jsCharsTake text 50) < jsLength text then jsCharsTake text 50 ++ "..."
           else if (jsCharsTake text 50 == "") = true then "New Chat"
           else jsCharsTake text 50) := fun _ => rfl
  refine ⟨?_, ?_, ?_, ?_⟩
  · -- the append itself
    have hmem : t ∈ s.threads := List.mem_of_find?_eq_some ht
    have hpt := List.find?_some ht
    have htid : t.id = s.currentThreadId := by simpa using hpt
    have hany : s.threads.any (fun u => u.id == s.currentThreadId) = true :=
      List.any_eq_true.mpr ⟨t, hmem, hpt⟩
    have hres : (addMessage s msg now).threads
        = s.threads.map (appendMessageToThread s.currentThreadId msg now) := by
      unfold addMessage
      rw [if_pos hany]
    have hcomp : ((fun u : ChatThread => u.id == s.currentThreadId)
          ∘ appendMessageToThread s.currentThreadId msg now)
        = fun u : ChatThread => u.id == s.currentThreadId := by
      funext u
      simp [Function.comp, appendMessageToThread_id]
    refine ⟨appendMessageToThread s.currentThreadId msg now t, ?_, ?_, ?_, ?_, ?_⟩
    · rw [hres, List.find?_map, hcomp, ht, Option.map_some']
    · unfold appendMessageToThread
      rw [if_pos htid]
      split_ifs <;> rfl
    · unfold appendMessageToThread
      rw [if_pos htid]
      split_ifs <;> rfl
    · rintro ⟨hempty, hrole⟩
      unfold appendMessageToThread
      rw [if_pos htid, if_pos ⟨hrole, by simp [hempty]⟩]
      show generateThreadTitle (t.messages ++ [msg]) = generateThreadTitle [msg]
      rw [hempty]
      rfl
    · intro hneg
      unfold appendMessageToThread
      rw [if_pos htid, if_neg]
      · rintro ⟨h1, h2⟩
        refine hneg ⟨?_, h1⟩
        have h3 : (t.messages ++ [msg]).length = 1 := h2
        simp at h3
        exact h3
  · -- truncation above 50 characters
    intro text hlen
    rw [hdefTitle text, if_pos]
    rw [jsLength] at hlen
    have : jsLength (jsCharsTake text 50) = min 50 text.data.length := by
      simp [jsLength, jsCharsTake, List.length_take]
    rw [this, jsLength]
    omega
  · -- short non-empty text used as is
    intro text hne hlen
    rw [jsLength] at hlen
    have htr : jsCharsTake text 50 = text := by
      show String.mk (text.data.take 50) = text
      rw [List.take_of_length_le hlen, strMk_data]
    rw [hdefTitle text, htr, if_neg (lt_irrefl _), if_neg]
    simp [hne]
  · -- no user message: placeholder
    intro msgs hnone
    have hfind : msgs.find? (fun m => m.role == Role.user) = none := by
      rw [List.find?_eq_none]
      intro x hx
      simp only [beq_iff_eq]
      exact hnone x hx
    unfold generateThreadTitle
    rw [hfind]

/-- Witness for `addMessage_title_spec`: appending `"hello"` as the first
message of the current (empty) thread. -/
theorem addMessage_title_spec_witness :
    ∃ t1, (addMessage
        { currentThreadId := "main",
          threads := [{ id := "main", messages := [], model := "", createdAt := 0,
                        updatedAt := 0, title := "New Chat", status := ThreadStatus.regular }],
          isRunning := false }
        { id := "u1", role := Role.user, content := MessageContent.str "hello" }
        5).threads.find? (fun u => u.id == "main") = some t1 ∧
      t1.messages = [] ++ [{ id := "u1", role := Role.user,
                             content := MessageContent.str "hello" }] ∧
      t1.updatedAt = 5 ∧
      (([] : List ThreadMessageLike) = [] ∧ Role.user = Role.user →
        t1.title = generateThreadTitle
          [{ id := "u1", role := Role.user, content := MessageContent.str "hello" }]) ∧
      (¬(([] : List ThreadMessageLike) = [] ∧ Role.user = Role.user) →
        t1.title = "New Chat") :=
  (addMessage_title_spec
    { currentThreadId := "main",
      threads := [{ id := "main", messages := [], model := "", createdAt := 0,
                    updatedAt := 0, title := "New Chat", status := ThreadStatus.regular }],
      isRunning := false }
    { id := "u1", role := Role.user, content := MessageContent.str "hello" }
    5
    { id := "main", messages := [], model := "", createdAt := 0,
      updatedAt := 0, title := "New Chat", status := ThreadStatus.regular }
    rfl).1

/-! ## Theorems: legacy migration (C8) -/

/-- C8: migrating clears the legacy slot whenever it held data, so a second
run finds the key absent and is a no-op; the single migration run converts
every legacy entry in place, synthesizing the missing fields (empty messages,
empty model, `now` timestamps, derived title, `"regular"` status). -/
theorem migrateOldData_idempotent (stored : Option OldPersisted) (now now2 : Nat) :
    (migrateOldData stored now).2 = none ∧
    migrateOldData (migrateOldData stored now).2 now2 = (none, none) ∧
    (stored = none → migrateOldData stored now = (none, none)) ∧
    (∀ d, stored = some d →
      ∃ ts, (migrateOldData stored now).1 = some ts ∧
        ts = d.threads.map (migrateThreadEntry now) ∧
        ∀ e ∈ d.threads,
          migrateThreadEntry now e ∈ ts ∧
          (migrateThreadEntry now e).status = ThreadStatus.regular ∧
          (migrateThreadEntry now e).id = e.1 ∧
          (migrateThreadEntry now e).messages = e.2.messages.getD [] ∧
          (migrateThreadEntry now e).title
            = generateThreadTitle (e.2.messages.getD [])) := by
  refine ⟨?_, ?_, ?_, ?_⟩
  · cases stored <;> rfl
  · cases stored <;> rfl
  · intro h; rw [h]; rfl
  · intro d hd
    subst hd
    refine ⟨d.threads.map (migrateThreadEntry now), rfl, rfl, ?_⟩
    intro e he
    exact ⟨List.mem_map.mpr ⟨e, he, rfl⟩, rfl, rfl, rfl, rfl⟩

/-- Witness for `migrateOldData_idempotent`: a one-entry legacy document. -/
theorem migrateOldData_idempotent_witness :
    migrateOldData
      (migrateOldData (some { threads := [("t1", { messages := none })] }) 3).2 4
      = (none, none) :=
  (migrateOldData_idempotent (some { threads := [("t1", { messages := none })] }) 3 4).2.1

/-! ## Theorems: aggressive cleanup on quota failure (C3) -/

/-- C3 counterexample: when the quota-exceeded failure happens with nothing
previously persisted (`loadThreads()` returns null), the aggressive cleanup
aborts without retrying, so only one write attempt is made instead of the
claimed retry. -/
theorem saveThreads_no_retry_counterexample :
    ¬ ((saveThreads none "t1" [] none WriteResult.quotaExceeded WriteResult.ok 0).2 = 2) := by
  decide

/-- C3 (amended): when a write fails with `QuotaExceededError` and previously
persisted data loads successfully, the retention maximum is halved by integer
floor division (10 becomes 5), the retention algorithm is re-run on the
loaded threads with the halved bound, every remaining thread's every message
gets an empty attachment list, and the write is retried exactly once (two
attempts in total); a failing retry leaves storage unchanged and is only
logged, and a non-quota write failure triggers no retry at all. -/
theorem saveThreads_quota_cleanup_spec (stored : Option PersistedThreadsData)
    (d : PersistedThreadsData) (hd : stored = some d)
    (threadId : String) (messages : List ThreadMessageLike) (model : Option String)
    (retry : WriteResult) (now : Nat) :
    (saveThreads stored threadId messages model WriteResult.quotaExceeded retry now).2 = 2 ∧
    STORAGE_CONFIG_maxThreads / 2 = 5 ∧
    (retry = WriteResult.ok →
      (saveThreads stored threadId messages model WriteResult.quotaExceeded retry now).1
        = some { threads := (cleanupOldThreads d.threads
                    (STORAGE_CONFIG_maxThreads / 2)).map stripThreadAttachments,
                 mainThreadId := d.mainThreadId, savedAt := now, version := "1.0" }) ∧
    (retry = WriteResult.ok →
      ∀ ts, (saveThreads stored threadId messages model WriteResult.quotaExceeded retry now).1
          = some ts →
        ∀ t ∈ ts.threads, ∀ m ∈ t.messages, m.attachments = some []) ∧
    (retry ≠ WriteResult.ok →
      (saveThreads stored threadId messages model WriteResult.quotaExceeded retry now).1
        = stored) ∧
    (saveThreads stored threadId messages model WriteResult.otherError retry now
      = (stored, 1)) := by
  subst hd
  have hok : ∀ h : retry = WriteResult.ok,
      (saveThreads (some d) threadId messages model WriteResult.quotaExceeded retry now).1
        = some { threads := (cleanupOldThreads d.threads
                    (STORAGE_CONFIG_maxThreads / 2)).map stripThreadAttachments,
                 mainThreadId := d.mainThreadId, savedAt := now, version := "1.0" } := by
    intro h
    subst h
    rfl
  refine ⟨?_, rfl, hok, ?_, ?_, rfl⟩
  · cases retry <;> rfl
  · intro h ts hts
    rw [hok h] at hts
    injection hts with h2
    subst h2
    intro t htmem m hmmem
    obtain ⟨t0, -, rfl⟩ := List.mem_map.mp htmem
    obtain ⟨m0, -, rfl⟩ := List.mem_map.mp hmmem
    rfl
  · intro h
    cases retry with
    | ok => exact absurd rfl h
    | quotaExceeded => rfl
    | otherError => rfl

/-- Witness for `saveThreads_quota_cleanup_spec`: a quota failure with one
previously persisted thread and a successful retry. -/
theorem saveThreads_quota_cleanup_spec_witness :
    (saveThreads
      (some { threads := [{ id := "t1", messages := [], createdAt := 0, updatedAt := 0 }],
              mainThreadId := some "t1", savedAt := 0, version := "1.0" })
      "t2" [] none WriteResult.quotaExceeded WriteResult.ok 9).2 = 2 :=
  (saveThreads_quota_cleanup_spec
    (some { threads := [{ id := "t1", messages := [], createdAt := 0, updatedAt := 0 }],
            mainThreadId := some "t1", savedAt := 0, version := "1.0" })
    { threads := [{ id := "t1", messages := [], createdAt := 0, updatedAt := 0 }],
      mainThreadId := some "t1", savedAt := 0, version := "1.0" }
    rfl "t2" [] none WriteResult.ok 9).1
